import Mathlib

/-!
# saypi — auth token scheme and typed API client: a verification development

This file embeds, in Lean, the authentication layer (`auth` package:
`Controller.CreateUser`, `Controller.getUser`, `Controller.WrapC`) and the
typed client (`client` package: `Client.NewRequest`, `Client.Do`) of the
saypi repository, and proves (or refutes) the specification's claims about
them.

Bytes are modelled as `Nat` values below 256, byte strings as `List Nat`.
32-bit machine words are `Nat` reduced modulo `2 ^ 32` wherever overflow
matters. The cryptographic primitives the auth code calls
(`crypto/sha256`, `crypto/hmac`, `encoding/base64`'s `URLEncoding`) are
standard-library algorithms, embedded here executably and faithfully to
their specifications so that token computations evaluate inside Lean.
-/

namespace Saypi

/-! ## 32-bit word arithmetic (SHA-256 works on 32-bit words) -/

/-- Reduce a natural number to a 32-bit word. -/
def w32 (n : Nat) : Nat := n % 4294967296

/-- Right rotation of a 32-bit word by `n` bits (0 ≤ n ≤ 32). -/
def rotr32 (x n : Nat) : Nat := w32 ((x >>> n) ||| (x <<< (32 - n)))

/-- Bitwise complement within 32 bits. -/
def not32 (x : Nat) : Nat := 4294967295 ^^^ x

/-! ## SHA-256 (FIPS 180-4), executable over byte lists -/

/-- The SHA-256 `Ch` function. -/
def shaCh (x y z : Nat) : Nat := (x &&& y) ^^^ (not32 x &&& z)

/-- The SHA-256 `Maj` function. -/
def shaMaj (x y z : Nat) : Nat := (x &&& y) ^^^ (x &&& z) ^^^ (y &&& z)

/-- The SHA-256 big sigma-0 word function. -/
def bigSigma0 (x : Nat) : Nat := rotr32 x 2 ^^^ rotr32 x 13 ^^^ rotr32 x 22

/-- The SHA-256 big sigma-1 word function. -/
def bigSigma1 (x : Nat) : Nat := rotr32 x 6 ^^^ rotr32 x 11 ^^^ rotr32 x 25

/-- The SHA-256 small sigma-0 word function. -/
def smallSigma0 (x : Nat) : Nat := rotr32 x 7 ^^^ rotr32 x 18 ^^^ (x >>> 3)

/-- The SHA-256 small sigma-1 word function. -/
def smallSigma1 (x : Nat) : Nat := rotr32 x 17 ^^^ rotr32 x 19 ^^^ (x >>> 10)

/-- The 64 SHA-256 round constants of FIPS 180-4 (written in decimal). -/
def shaK : List Nat :=
  [1116352408, 1899447441, 3049323471, 3921009573, 961987163, 1508970993,
   2453635748, 2870763221, 3624381080, 310598401, 607225278, 1426881987,
   1925078388, 2162078206, 2614888103, 3248222580, 3835390401, 4022224774,
   264347078, 604807628, 770255983, 1249150122, 1555081692, 1996064986,
   2554220882, 2821834349, 2952996808, 3210313671, 3336571891, 3584528711,
   113926993, 338241895, 666307205, 773529912, 1294757372, 1396182291,
   1695183700, 1986661051, 2177026350, 2456956037, 2730485921, 2820302411,
   3259730800, 3345764771, 3516065817, 3600352804, 4094571909, 275423344,
   430227734, 506948616, 659060556, 883997877, 958139571, 1322822218,
   1537002063, 1747873779, 1955562222, 2024104815, 2227730452, 2361852424,
   2428436474, 2756734187, 3204031479, 3329325298]

/-- The SHA-256 initial hash value, eight 32-bit words (in decimal). -/
def shaH0 : List Nat :=
  [1779033703, 3144134277, 1013904242, 2773480762,
   1359893119, 2600822924, 528734635, 1541459225]

/-- Pack bytes into big-endian 32-bit words, four bytes per word. -/
def bytesToWords : List Nat → List Nat
  | a :: b :: c :: d :: rest =>
      (a * 16777216 + b * 65536 + c * 256 + d) :: bytesToWords rest
  | _ => []

/-- Unpack one 32-bit word into its four big-endian bytes. -/
def wordToBytes (w : Nat) : List Nat :=
  [w / 16777216 % 256, w / 65536 % 256, w / 256 % 256, w % 256]

/-- Unpack a list of 32-bit words into big-endian bytes. -/
def wordsToBytes : List Nat → List Nat
  | [] => []
  | w :: rest => wordToBytes w ++ wordsToBytes rest

/-- Message-schedule extension: `recent` holds the previous 16 schedule words,
most recent first; produce the next `n` schedule words in order. -/
def extendW : Nat → List Nat → List Nat
  | 0, _ => []
  | n + 1, recent =>
      let g : Nat → Nat := fun i => (recent.get? i).getD 0
      let next := w32 (smallSigma1 (g 1) + g 6 + smallSigma0 (g 14) + g 15)
      next :: extendW n (next :: recent.take 15)

/-- The full 64-word message schedule of one 16-word block. -/
def messageSchedule (block : List Nat) : List Nat :=
  block ++ extendW 48 block.reverse

/-- One SHA-256 compression round: the working variables `[a,b,c,d,e,f,g,h]`
updated by a round constant paired with a schedule word. -/
def shaRound (st : List Nat) (kw : Nat × Nat) : List Nat :=
  match st with
  | [a, b, c, d, e, f, g, h] =>
      let t1 := w32 (h + bigSigma1 e + shaCh e f g + kw.1 + kw.2)
      let t2 := w32 (bigSigma0 a + shaMaj a b c)
      [w32 (t1 + t2), a, b, c, w32 (d + t1), e, f, g]
  | other => other

/-- Process one 64-byte block: run 64 rounds and add the result into the
intermediate hash value, word by word, modulo `2 ^ 32`. -/
def processBlock (h : List Nat) (block : List Nat) : List Nat :=
  let w := messageSchedule (bytesToWords block)
  let final := (shaK.zip w).foldl shaRound h
  (h.zip final).map fun p => w32 (p.1 + p.2)

/-- Big-endian 8-byte encoding of a (bit-)length. -/
def be64 (n : Nat) : List Nat :=
  [n >>> 56 % 256, n >>> 48 % 256, n >>> 40 % 256, n >>> 32 % 256,
   n >>> 24 % 256, n >>> 16 % 256, n >>> 8 % 256, n % 256]

/-- SHA-256 padding: append `0x80`, zero bytes to 56 mod 64, then the
message bit length as 8 big-endian bytes. -/
def sha256pad (msg : List Nat) : List Nat :=
  let l := msg.length
  let zeros := (64 + 56 - (l + 1) % 64) % 64
  msg ++ 0x80 :: List.replicate zeros 0 ++ be64 (8 * l)

/-- Split a byte list into 64-byte chunks; `fuel` bounds the recursion so the
definition stays structural (callers pass at least `l.length`). -/
def chunks64 : Nat → List Nat → List (List Nat)
  | 0, _ => []
  | _ + 1, [] => []
  | fuel + 1, l => l.take 64 :: chunks64 fuel (l.drop 64)

/-- SHA-256 of a byte list: pad, then fold the compression function over the
64-byte blocks, and serialize the eight word state big-endian. -/
def sha256 (msg : List Nat) : List Nat :=
  let padded := sha256pad msg
  wordsToBytes ((chunks64 padded.length padded).foldl processBlock shaH0)

/-! ## HMAC (RFC 2104) over SHA-256, as `crypto/hmac` computes it -/

/-- The SHA-256 block size in bytes (`sha256.BlockSize`). -/
def shaBlockSize : Nat := 64

/-- Normalize an HMAC key to the block size: hash it if longer, then
right-pad with zeros. -/
def hmacKey (key : List Nat) : List Nat :=
  let k := if key.length > shaBlockSize then sha256 key else key
  k ++ List.replicate (shaBlockSize - k.length) 0

/-- HMAC-SHA256 of `msg` under `key`:
`H((k ⊕ opad) ‖ H((k ⊕ ipad) ‖ msg))`. -/
def hmacSha256 (key msg : List Nat) : List Nat :=
  let k := hmacKey key
  let ipad := k.map fun b => b ^^^ 0x36
  let opad := k.map fun b => b ^^^ 0x5c
  sha256 (opad ++ sha256 (ipad ++ msg))

/-! ## base64url with padding, as `encoding/base64.URLEncoding` -/

/-- The base64url alphabet. -/
def b64alphabet : List Char :=
  ['A', 'B', 'C', 'D', 'E', 'F', 'G', 'H', 'I', 'J', 'K', 'L', 'M',
   'N', 'O', 'P', 'Q', 'R', 'S', 'T', 'U', 'V', 'W', 'X', 'Y', 'Z',
   'a', 'b', 'c', 'd', 'e', 'f', 'g', 'h', 'i', 'j', 'k', 'l', 'm',
   'n', 'o', 'p', 'q', 'r', 's', 't', 'u', 'v', 'w', 'x', 'y', 'z',
   '0', '1', '2', '3', '4', '5', '6', '7', '8', '9', '-', '_']

/-- The character for a 6-bit value. -/
def b64char (n : Nat) : Char := (b64alphabet.get? n).getD '?'

/-- The 6-bit value of an alphabet character, `none` for anything else
(including the padding character). -/
def b64index (c : Char) : Option Nat := b64alphabet.indexOf? c

/-- Encode bytes three at a time into base64url characters, padding the
final partial group with `=` as `base64.URLEncoding` does. -/
def b64encodeGroups : List Nat → List Char
  | [] => []
  | [a] =>
      let n := a * 65536
      [b64char (n / 262144), b64char (n / 4096 % 64), '=', '=']
  | [a, b] =>
      let n := a * 65536 + b * 256
      [b64char (n / 262144), b64char (n / 4096 % 64), b64char (n / 64 % 64), '=']
  | a :: b :: c :: rest =>
      let n := a * 65536 + b * 256 + c
      b64char (n / 262144) :: b64char (n / 4096 % 64) :: b64char (n / 64 % 64) ::
        b64char (n % 64) :: b64encodeGroups rest

/-- Encoding entry point, modelling base64.URLEncoding.EncodeToString. -/
def base64urlEncode (bytes : List Nat) : String :=
  String.mk (b64encodeGroups bytes)

/-- Decode base64url characters four at a time. Padding is accepted only in
the final group and only in the last one or two positions; any character
outside the alphabet fails, as base64.URLEncoding.DecodeString does. Like
Go's (non-strict) decoder, unused trailing bits of a padded group are
discarded without being checked. -/
def b64decodeGroups : List Char → Option (List Nat)
  | [] => some []
  | c1 :: c2 :: c3 :: c4 :: rest =>
      if c3 = '=' then
        if c4 = '=' ∧ rest = [] then
          match b64index c1, b64index c2 with
          | some i1, some i2 => some [(i1 * 262144 + i2 * 4096) / 65536]
          | _, _ => none
        else none
      else if c4 = '=' then
        if rest = [] then
          match b64index c1, b64index c2, b64index c3 with
          | some i1, some i2, some i3 =>
              let n := i1 * 262144 + i2 * 4096 + i3 * 64
              some [n / 65536, n / 256 % 256]
          | _, _, _ => none
        else none
      else
        match b64index c1, b64index c2, b64index c3, b64index c4,
              b64decodeGroups rest with
        | some i1, some i2, some i3, some i4, some tail =>
            let n := i1 * 262144 + i2 * 4096 + i3 * 64 + i4
            some (n / 65536 :: n / 256 % 256 :: n % 256 :: tail)
        | _, _, _, _, _ => none
  | _ => none

/-- Decoding entry point, modelling base64.URLEncoding.DecodeString; `none`
models a decode error. -/
def base64urlDecode (s : String) : Option (List Nat) :=
  b64decodeGroups s.toList

/-! ## The auth package: token issue and verify, and the auth middleware

Embedded from `src/client/client.go`'s companion `auth` package source
(`Controller.CreateUser`, `Controller.getUser`, `Controller.WrapC`). The
controller's only state is the immutable `secret`, which the embedding
passes explicitly. Identities are byte lists; the empty list models the Go
sentinel `""` that `getUser` returns for an invalid token. -/

/-- Length of a user identity in bytes (the `idLen` constant). -/
def idLen : Nat := 16

/-- Byte length of a SHA-256 digest: `sha256.Size`, which is also
`mac.Size()` for an HMAC-SHA256 instance. -/
def sha256Size : Nat := 32

/-- Constant-time MAC comparison, `hmac.Equal`: semantically it is plain
byte-list equality, and it is `false` whenever the lengths differ. -/
def hmacEqual (a b : List Nat) : Bool := a == b

/-- The token computation of `Controller.CreateUser`, line by line:

* `user := make([]byte, 0, idLen)` makes a slice of length 0 (capacity 16);
* `rand.Read(user)` therefore reads `len(user) = 0` random bytes, so the
  computation is deterministic and independent of the random source;
* `mac := hmac.New(sha256.New, c.secret).Sum(user)` appends the digest of
  the empty written stream to `user`, i.e. `user ++ HMAC(secret, [])`;
* `user = append(user, mac...)` appends that onto the empty `user`;
* the response ID is the base64url encoding of the result.

The JSON envelope `\x7b"id": token\x7d` around the returned string is not
modelled; this function returns the token string itself. -/
def createUserToken (secret : List Nat) : String :=
  let user : List Nat := []
  let mac := user ++ hmacSha256 secret []
  let user := user ++ mac
  base64urlEncode user

/-- The verifier `Controller.getUser`: base64url-decode the token, reject
unless exactly `idLen + mac.Size()` bytes, then compare the trailing bytes
against `mac.Sum(id)` — which, since nothing was written to the HMAC, is
`id ++ HMAC(secret, [])`. Returns the identity bytes on success and the
empty list (Go returns `""`) otherwise. -/
def getUser (secret : List Nat) (auth : String) : List Nat :=
  match base64urlDecode auth with
  | none => []
  | some raw =>
      if raw.length ≠ idLen + sha256Size then []
      else
        let id := raw.take idLen
        let msgMac := raw.drop idLen
        if hmacEqual msgMac (id ++ hmacSha256 secret []) then id else []

/-- String prefix test over the character lists, the semantics of Go's
strings.HasPrefix (written out so that concrete tokens evaluate inside the
kernel). -/
def strStartsWith (s pre : String) : Bool := pre.toList.isPrefixOf s.toList

/-- Drop the first `n` characters of a string. -/
def strDropChars (s : String) (n : Nat) : String := String.mk (s.toList.drop n)

/-- Drop the longest run of characters satisfying `p` from the right end
of a string. -/
def strDropRightWhile (s : String) (p : Char → Bool) : String :=
  String.mk ((s.toList.reverse.dropWhile p).reverse)

/-- Observable outcome of the middleware `Controller.WrapC` on one request:
either an `http.Error` response with status 401 and a message (the inner
handler is not invoked), or an invocation of the inner handler with the
string value stored in the request context under the key "userID". -/
inductive AuthOutcome where
  | unauthorized (message : String)
  | invoked (ctxUserID : String)
  deriving DecidableEq

/-- The middleware `Controller.WrapC`, as a function of the secret and the
value of the Authorization header (`r.Header.Get` yields `""` when the
header is absent). It requires the exact case-sensitive "Bearer " marker,
strips it with `strings.TrimPrefix`, and verifies the rest via `getUser`.
On success the source executes `context.WithValue(ctx, "userID", "")`: the
attached context value is the constant empty string, not the identity that
`getUser` returned. -/
def wrapC (secret : List Nat) (authHeader : String) : AuthOutcome :=
  if ¬ strStartsWith authHeader "Bearer " then
    .unauthorized "You must provide a Bearer token in an Authorization header"
  else
    let tok := if strStartsWith authHeader "Bearer " then
        strDropChars authHeader "Bearer ".toList.length
      else authHeader
    if getUser secret tok ≠ [] then .invoked ""
    else .unauthorized "Invalid authentication string"

/-- Whether an `AuthOutcome` is the 401 rejection (on which the downstream
handler is never invoked). -/
def isUnauthorized : AuthOutcome → Bool
  | .unauthorized _ => true
  | .invoked _ => false

/-! ## The client package: request construction (`Client.NewRequest`)

Embedded from `src/client/client.go`. URLs are modelled by their path and
raw query components, the two parts `NewRequest` manipulates; the route
paths at issue carry neither scheme nor fragment. -/

/-- The path and raw query of a `net/url.URL`. -/
structure GoURL where
  path : String
  rawQuery : String
  deriving DecidableEq

/-- The characters before the first '?' of a character list. -/
def pathChars : List Char → List Char
  | [] => []
  | c :: rest => if c = '?' then [] else c :: pathChars rest

/-- The characters after the first '?' of a character list (empty when
there is none). -/
def queryCharsAfter : List Char → List Char
  | [] => []
  | c :: rest => if c = '?' then rest else queryCharsAfter rest

/-- Parsing of the relative paths produced by route templates, modelling
`url.Parse` on them: everything after the first '?' is the raw query.
Dot-segment handling and schemes do not arise for these paths. -/
def urlParse (s : String) : GoURL :=
  { path := String.mk (pathChars s.toList)
    rawQuery := String.mk (queryCharsAfter s.toList) }

/-- Resolution of a relative reference against a base URL, modelling
`url.URL.ResolveReference` for the relative path-and-query references
`NewRequest` builds: an absolute-path reference replaces the base path,
any other nonempty path is resolved against the base path's directory,
and the reference's query is taken. Dot-segment removal is not modelled
(route paths contain no dot segments). -/
def resolveReference (base rel : GoURL) : GoURL :=
  if rel.path = "" then
    { path := base.path
      rawQuery := if rel.rawQuery = "" then base.rawQuery else rel.rawQuery }
  else if strStartsWith rel.path "/" then
    { path := rel.path, rawQuery := rel.rawQuery }
  else
    { path := (strDropRightWhile base.path fun c => c ≠ '/') ++ rel.path
      rawQuery := rel.rawQuery }

/-- The hexadecimal digit characters used by percent-encoding. -/
def hexUpper : List Char :=
  ['0', '1', '2', '3', '4', '5', '6', '7', '8', '9',
   'A', 'B', 'C', 'D', 'E', 'F']

/-- Percent-encoding of one byte. -/
def percentByte (b : Nat) : List Char :=
  ['%', (hexUpper.get? (b / 16 % 16)).getD '0', (hexUpper.get? (b % 16)).getD '0']

/-- The UTF-8 bytes of a character. -/
def utf8Bytes (c : Char) : List Nat :=
  let n := c.toNat
  if n < 128 then [n]
  else if n < 2048 then [192 + n / 64, 128 + n % 64]
  else if n < 65536 then [224 + n / 4096, 128 + n / 64 % 64, 128 + n % 64]
  else [240 + n / 262144, 128 + n / 4096 % 64, 128 + n / 64 % 64, 128 + n % 64]

/-- Whether `url.QueryEscape` leaves a character unescaped. -/
def queryUnescapedChar (c : Char) : Bool :=
  c.isAlphanum || c = '-' || c = '_' || c = '.' || c = '~'

/-- Escape one character as `url.QueryEscape` does: unreserved characters
stay, a space becomes '+', and everything else is percent-encoded byte by
byte. -/
def queryEscapeChar (c : Char) : List Char :=
  if queryUnescapedChar c then [c]
  else if c = ' ' then ['+']
  else ((utf8Bytes c).map percentByte).flatten

/-- Escaping of a whole string, modelling `url.QueryEscape`. -/
def queryEscape (s : String) : String :=
  String.mk ((s.toList.map queryEscapeChar).flatten)

/-- Insert a key/value pair into a key-sorted association list. -/
def insertSorted (kv : String × String) :
    List (String × String) → List (String × String)
  | [] => [kv]
  | kv2 :: rest =>
      if kv.1 ≤ kv2.1 then kv :: kv2 :: rest else kv2 :: insertSorted kv rest

/-- Sort an association list by key (insertion sort). -/
def sortByKey (l : List (String × String)) : List (String × String) :=
  l.foldr insertSorted []

/-- Form encoding, modelling `url.Values.Encode`: keys sorted, each pair
escaped and written as key=value, the pairs joined with '&'. The form is
modelled as an association list with one value per key. -/
def urlValuesEncode (form : List (String × String)) : String :=
  String.intercalate "&"
    ((sortByKey form).map fun kv => queryEscape kv.1 ++ "=" ++ queryEscape kv.2)

/-- A route, the `Route` interface of the client package: the key set of
`HTTPMethods()` (a Go map; its arbitrary iteration order is represented by
the list order) and the `URLPath` function over path-variable bindings. -/
structure Route where
  httpMethods : List String
  urlPath : List (String × String) → Except String String

/-- The immutable client configuration `NewRequest` reads: the base URL and
the bearer token installed with `SetAuthorization` (empty when unset). -/
structure ClientState where
  baseURL : GoURL
  auth : String

/-- An outbound request as `NewRequest` determines it: method, resolved
URL, optional body, and the headers the function itself sets. -/
structure Request where
  method : String
  url : GoURL
  body : Option String
  headers : List (String × String)
  deriving DecidableEq

/-- The method-selection loop of `Client.NewRequest` for a route with two
or more methods: scan for a method that is neither HEAD nor OPTIONS,
failing if a second one appears; `acc` is the Go `method` variable,
initially the empty string. -/
def pickPrimary : List String → String → Except String String
  | [], acc => .ok acc
  | m :: rest, acc =>
      if m ≠ "HEAD" ∧ m ≠ "OPTIONS" then
        if acc ≠ "" then .error "route defines multiple non-HEAD/OPTIONS methods"
        else pickPrimary rest m
      else pickPrimary rest acc

/-- Method resolution in `Client.NewRequest`: an empty method set is an
error, a singleton is taken as is, and a larger set goes through
`pickPrimary`. -/
def resolveMethod : List String → Except String String
  | [] => .error "route does not define any HTTPMethods"
  | [m] => .ok m
  | ms => pickPrimary ms ""

/-- The request builder `Client.NewRequest`: expand the route path, parse
it, resolve the method, resolve against the base URL, then place the
encoded form (if any) in the query string for GET/HEAD and in the body
otherwise, and finally set the Authorization header when a token is held
and Content-Type when a body is present. `rtVars = none` models a nil
`Vars` argument (an empty binding map); `form = none` models a nil form. -/
def newRequest (c : ClientState) (rt : Route)
    (rtVars : Option (List (String × String)))
    (form : Option (List (String × String))) : Except String Request :=
  let vars := rtVars.getD []
  match rt.urlPath vars with
  | .error e => .error ("unable to generate request path: " ++ e)
  | .ok path =>
      let rel := urlParse path
      match resolveMethod rt.httpMethods with
      | .error e => .error e
      | .ok method =>
          let abs := resolveReference c.baseURL rel
          let placed :=
            match form with
            | none => (abs, (none : Option String))
            | some f =>
                let encoded := urlValuesEncode f
                if method = "GET" ∨ method = "HEAD" then
                  ({ abs with rawQuery := encoded }, none)
                else (abs, some encoded)
          let headers :=
            (if c.auth ≠ "" then [("Authorization", "Bearer " ++ c.auth)] else [])
              ++ (if placed.2.isSome then
                    [("Content-Type", "application/x-www-form-urlencoded")]
                  else [])
          .ok { method := method, url := placed.1, body := placed.2,
                headers := headers }

/-! ## The client package: response translation (`Client.Do`)

`Client.Do` first validates the destination value, then executes the
request through the stored transport function, then translates the
response by status code. The `usererrors` package and the JSON decoding of
success payloads are external to the sources under verification and are
modelled from the spec below. -/

/-- A typed application-level error, the spec's DomainError: a
machine-readable kind plus a message. -/
structure UserError where
  kind : String
  message : String
  deriving DecidableEq

/-- Read characters up to an unescaped closing double quote; the known
error kinds and messages need no escape sequences. -/
def readQuoted : List Char → Option (List Char × List Char)
  | [] => none
  | c :: rest =>
      if c = '"' then some ([], rest)
      else match readQuoted rest with
        | some (s, r) => some (c :: s, r)
        | none => none

/-- Consume an expected literal character sequence. -/
def dropLit (lit s : List Char) : Option (List Char) :=
  if lit.isPrefixOf s then some (s.drop lit.length) else none

/-- Modelled from the spec: `usererrors.UnmarshalJSON` — the `usererrors`
package is not among the sources under verification. The spec (sections 3,
6) requires the error body to be a JSON object from which the receiver
recovers a kind-tagged DomainError, round-tripping kind and message; the
wire shape modelled is `\x7b"type":"<kind>","message":"<msg>"\x7d`.
Decoding returns the kind-tagged error on a well-formed body and fails
(`none`) on anything else. -/
def usererrorsUnmarshalJSON (body : String) : Option UserError :=
  match dropLit "\x7b\"type\":\"".toList body.toList with
  | none => none
  | some s1 =>
      match readQuoted s1 with
      | none => none
      | some (kind, s2) =>
          match dropLit ",\"message\":\"".toList s2 with
          | none => none
          | some s3 =>
              match readQuoted s3 with
              | none => none
              | some (msg, s4) =>
                  if s4 = "\x7d".toList then
                    some { kind := String.mk kind, message := String.mk msg }
                  else none

/-- The destination argument `v` of `Client.Do`, seen through the
reflection checks the source performs: nil, a pointer, or a non-pointer
value of some named type. -/
inductive DoDest where
  | nilDest
  | ptrDest
  | nonPtrDest (typeName : String)
  deriving DecidableEq

/-- An HTTP response as `Client.Do` consumes it: status code and the full
body (already materialized, so reading it cannot fail in the model). -/
structure GoResponse where
  statusCode : Nat
  body : String
  deriving DecidableEq

/-- The observable result of `Client.Do`. -/
inductive DoOutcome where
  | errValueNotPointer (typeName : String)
  | errTransport
  | errUser (e : UserError)
  | errParseErrorBody
  | errUnexpectedStatus (code : Nat)
  | errParseResponseBody
  | success
  deriving DecidableEq

/-- The translator `Client.Do`. Arguments: the destination `v`; the
transport outcome (what `c.do(req)` would return — `Client.Do` consults it
only after the destination check passes); and, modelled from the spec, the
JSON decodability of a success payload into the destination
(`json.NewDecoder(resp.Body).Decode(v)` of the external `encoding/json`).
Returns the outcome paired with whether the transport function was
invoked. The source's branch order: destination check; transport; status
above 399 reads the body and decodes it as a usererror (decoded: that
typed error is returned; otherwise the parse-error annotation); then
status above 299 or below 199 is the unexpected-status error; then a 2xx
body is decoded into a non-nil destination. -/
def clientDo (v : DoDest) (transport : Except Unit GoResponse)
    (decodesInto : String → Bool) : DoOutcome × Bool :=
  match v with
  | .nonPtrDest t => (.errValueNotPointer t, false)
  | _ =>
      match transport with
      | .error _ => (.errTransport, true)
      | .ok resp =>
          if resp.statusCode > 399 then
            match usererrorsUnmarshalJSON resp.body with
            | some uerr => (.errUser uerr, true)
            | none => (.errParseErrorBody, true)
          else if resp.statusCode > 299 ∨ resp.statusCode < 199 then
            (.errUnexpectedStatus resp.statusCode, true)
          else
            match v with
            | .nilDest => (.success, true)
            | _ =>
                if decodesInto resp.body then (.success, true)
                else (.errParseResponseBody, true)

/-! ## Concrete fixtures used by closed statements below -/

/-- A demonstration secret, the bytes of "sosecret". -/
def demoSecret : List Nat := [115, 111, 115, 101, 99, 114, 101, 116]

/-- A demonstration identity: sixteen zero bytes, the identity length the
data model prescribes. -/
def demoId : List Nat := List.replicate idLen 0

/-- A token of exactly the shape the spec declares valid:
base64url(identity of 16 bytes followed by HMAC-SHA256(identity)). -/
def demoToken : String := base64urlEncode (demoId ++ hmacSha256 demoSecret demoId)

/-- An error body carrying kind "not_found", in the modelled wire shape. -/
def nfBody : String := "\x7b\"type\":\"not_found\",\"message\":\"gone\"\x7d"

/-- A success-payload decoder that accepts any body. -/
def decodeAlways : String → Bool := fun _ => true

/-- A client with an empty base URL and no bearer token, as `NewForTest`
builds. -/
def client0 : ClientState := { baseURL := { path := "", rawQuery := "" }, auth := "" }

/-- A route accepting only GET. -/
def routeGetOnly : Route := { httpMethods := ["GET"], urlPath := fun _ => .ok "/moods" }

/-- A route accepting GET with HEAD as companion. -/
def routeGetHead : Route :=
  { httpMethods := ["GET", "HEAD"], urlPath := fun _ => .ok "/moods" }

/-- The same route with the other map-iteration order. -/
def routeHeadGet : Route :=
  { httpMethods := ["HEAD", "GET"], urlPath := fun _ => .ok "/moods" }

/-- A route accepting two primary methods, GET and POST. -/
def routeGetPost : Route :=
  { httpMethods := ["GET", "POST"], urlPath := fun _ => .ok "/moods" }

/-- A route with an empty method set. -/
def routeNoMethods : Route := { httpMethods := [], urlPath := fun _ => .ok "/moods" }

/-- A route accepting only POST. -/
def routePostOnly : Route :=
  { httpMethods := ["POST"], urlPath := fun _ => .ok "/moods" }

/-- The method of a built request, when building succeeded. -/
def reqMethod (e : Except String Request) : Except String String :=
  e.map fun r => r.method

/-- The concrete POST request that building with form a=1 produces. -/
def postReq : Request :=
  { method := "POST", url := { path := "/moods", rawQuery := "" },
    body := some "a=1",
    headers := [("Content-Type", "application/x-www-form-urlencoded")] }

/-! ## Helper lemmas: base64url round-trip -/

/-- Alphabet characters decode back to their six-bit values. -/
theorem b64index_b64char : ∀ m, m < 64 → b64index (b64char m) = some m := by decide

/-- No alphabet character is the padding character. -/
theorem b64char_ne_pad : ∀ m, m < 64 → b64char m ≠ '=' := by decide

/-- Decoding inverts encoding on byte lists (all entries below 256). -/
theorem b64_roundtrip :
    ∀ l : List Nat, (∀ b ∈ l, b < 256) →
      b64decodeGroups (b64encodeGroups l) = some l := by
  intro l
  induction l using b64encodeGroups.induct with
  | case1 =>
      intro _
      rfl
  | case2 a =>
      intro h
      have ha : a < 256 := h a (by simp)
      have h1 : a * 65536 / 262144 < 64 := by omega
      have h2 : a * 65536 / 4096 % 64 < 64 := by omega
      simp [b64encodeGroups, b64decodeGroups,
        b64index_b64char _ h1, b64index_b64char _ h2]
      omega
  | case3 a b =>
      intro h
      have ha : a < 256 := h a (by simp)
      have hb : b < 256 := h b (by simp)
      have h1 : (a * 65536 + b * 256) / 262144 < 64 := by omega
      have h2 : (a * 65536 + b * 256) / 4096 % 64 < 64 := by omega
      have h3 : (a * 65536 + b * 256) / 64 % 64 < 64 := by omega
      simp [b64encodeGroups, b64decodeGroups, b64char_ne_pad _ h3,
        b64index_b64char _ h1, b64index_b64char _ h2, b64index_b64char _ h3]
      omega
  | case4 a b c rest ih =>
      intro h
      have ha : a < 256 := h a (by simp)
      have hb : b < 256 := h b (by simp)
      have hc : c < 256 := h c (by simp)
      have hrest : ∀ x ∈ rest, x < 256 := fun x hx => h x (by simp [hx])
      have h1 : (a * 65536 + b * 256 + c) / 262144 < 64 := by omega
      have h2 : (a * 65536 + b * 256 + c) / 4096 % 64 < 64 := by omega
      have h3 : (a * 65536 + b * 256 + c) / 64 % 64 < 64 := by omega
      have h4 : (a * 65536 + b * 256 + c) % 64 < 64 := by omega
      simp [b64encodeGroups, b64decodeGroups,
        b64char_ne_pad _ h3, b64char_ne_pad _ h4,
        b64index_b64char _ h1, b64index_b64char _ h2,
        b64index_b64char _ h3, b64index_b64char _ h4, ih hrest]
      omega

/-- The string-level round-trip: decoding an encoded byte list gives it
back. -/
theorem base64urlDecode_encode (l : List Nat) (h : ∀ b ∈ l, b < 256) :
    base64urlDecode (base64urlEncode l) = some l := by
  unfold base64urlDecode base64urlEncode
  rw [show (String.mk (b64encodeGroups l)).toList = b64encodeGroups l from rfl]
  exact b64_roundtrip l h

/-! ## Helper lemmas: SHA-256 output length and byte bounds -/

/-- One compression round keeps the length of the working-variable list. -/
theorem shaRound_length (st : List Nat) (kw : Nat × Nat) :
    (shaRound st kw).length = st.length := by
  unfold shaRound
  split
  · rfl
  · rfl

/-- The 64-round fold keeps the length of the working-variable list. -/
theorem foldl_shaRound_length :
    ∀ (kws : List (Nat × Nat)) (st : List Nat),
      (kws.foldl shaRound st).length = st.length
  | [], _ => rfl
  | kw :: rest, st => by
      rw [List.foldl_cons, foldl_shaRound_length rest, shaRound_length]

/-- Processing a block keeps the length of the hash state. -/
theorem processBlock_length (h block : List Nat) :
    (processBlock h block).length = h.length := by
  unfold processBlock
  simp [foldl_shaRound_length]

/-- Folding the compression function over any chunk list keeps the state
length. -/
theorem foldl_processBlock_length :
    ∀ (chunks : List (List Nat)) (h : List Nat),
      (chunks.foldl processBlock h).length = h.length
  | [], _ => rfl
  | c :: rest, h => by
      rw [List.foldl_cons, foldl_processBlock_length rest, processBlock_length]

/-- Serializing words yields four bytes per word. -/
theorem wordsToBytes_length :
    ∀ ws : List Nat, (wordsToBytes ws).length = 4 * ws.length
  | [] => rfl
  | w :: rest => by
      simp [wordsToBytes, wordToBytes, wordsToBytes_length rest]
      ring

/-- Serialized words consist of bytes (each entry is below 256). -/
theorem wordsToBytes_lt :
    ∀ (ws : List Nat), ∀ b ∈ wordsToBytes ws, b < 256
  | [], b, hb => by simp [wordsToBytes] at hb
  | w :: rest, b, hb => by
      simp only [wordsToBytes, wordToBytes, List.mem_append,
        List.mem_cons, List.not_mem_nil] at hb
      rcases hb with h | h
      · rcases h with h | h | h | h | h
        all_goals first
          | (subst h; omega)
          | exact absurd h (by simp)
      · exact wordsToBytes_lt rest b h

/-- A SHA-256 digest is exactly 32 bytes. -/
theorem sha256_length (msg : List Nat) : (sha256 msg).length = 32 := by
  unfold sha256
  rw [wordsToBytes_length, foldl_processBlock_length]
  rfl

/-- Every entry of a SHA-256 digest is a byte. -/
theorem sha256_lt (msg : List Nat) : ∀ b ∈ sha256 msg, b < 256 := by
  unfold sha256
  intro b hb
  exact wordsToBytes_lt _ b hb

/-- An HMAC-SHA256 tag is exactly 32 bytes. -/
theorem hmacSha256_length (key msg : List Nat) :
    (hmacSha256 key msg).length = 32 := sha256_length _

/-- Every entry of an HMAC-SHA256 tag is a byte. -/
theorem hmacSha256_lt (key msg : List Nat) :
    ∀ b ∈ hmacSha256 key msg, b < 256 := sha256_lt _

/-! ## Helper lemmas: the verifier rejects every token

The comparison in `getUser` is `hmac.Equal(msgMac, mac.Sum(id))`. With
nothing written to the HMAC, `mac.Sum(id)` is `id` followed by the digest
of the empty message: 16 + 32 = 48 bytes, compared against the 32 trailing
token bytes. The lengths can never agree, so the comparison is always
false and `getUser` returns the invalid sentinel on every input. -/

/-- The verifier returns the invalid result (the empty identity) on every
secret and every token string. -/
theorem getUser_always_empty (secret : List Nat) (auth : String) :
    getUser secret auth = [] := by
  unfold getUser
  cases hdec : base64urlDecode auth with
  | none => rfl
  | some raw =>
      by_cases hlen : raw.length = idLen + sha256Size
      · have hmm : (raw.drop idLen).length = 32 := by
          rw [List.length_drop, hlen]
          decide
        have hsum : (raw.take idLen ++ hmacSha256 secret []).length = 48 := by
          rw [List.length_append, List.length_take, hmacSha256_length]
          simp [idLen, sha256Size] at hlen ⊢
          omega
        have hne : raw.drop idLen ≠ raw.take idLen ++ hmacSha256 secret [] := by
          intro he
          rw [he, hsum] at hmm
          omega
        have hbeq : hmacEqual (raw.drop idLen)
            (raw.take idLen ++ hmacSha256 secret []) = false := by
          unfold hmacEqual
          exact beq_eq_false_iff_ne.mpr hne
        simp [hlen, hbeq]
      · simp [hlen]

/-! ## The claims -/

/-- C1: the spec claims that verifying a token issued by CreateUser returns
the issued identity. In the code the round trip fails for every secret:
CreateUser issues base64url(HMAC(secret, empty)) — 32 bytes once decoded —
while getUser insists on 48 decoded bytes, so verification of the issued
token returns the invalid result instead of an identity. -/
theorem claim1_issue_verify_roundtrip_fails (secret : List Nat) :
    getUser secret (createUserToken secret) = [] :=
  getUser_always_empty secret (createUserToken secret)

/-- C2: the spec claims CreateUser generates a fresh random 16-byte
identity, MACs it and base64url-encodes identity plus MAC. In the code the
identity slice has length zero, so the issued token decodes to exactly
HMAC(secret, empty message) — 32 bytes, none of them identity bytes, and
not the claimed idLen + MAC-size shape. -/
theorem claim2_issued_token_has_no_identity (secret : List Nat) :
    base64urlDecode (createUserToken secret) = some (hmacSha256 secret []) ∧
    (hmacSha256 secret []).length = 32 ∧
    (hmacSha256 secret []).length ≠ idLen + sha256Size := by
  refine ⟨?_, hmacSha256_length secret [], ?_⟩
  · exact base64urlDecode_encode _ (hmacSha256_lt secret [])
  · rw [hmacSha256_length]
    decide

/-- C3: the spec claims getUser accepts exactly the tokens that decode to
idLen + MAC-size bytes whose trailing bytes are the HMAC of the leading
bytes. In the code getUser returns the invalid result on every input —
the comparison pits 32 trailing bytes against the 48-byte mac.Sum(id) — so
in particular the demonstration token, which satisfies the claimed
acceptance condition exactly, is rejected. -/
theorem claim3_verifier_rejects_spec_valid_tokens :
    (∀ (secret : List Nat) (auth : String), getUser secret auth = []) ∧
    base64urlDecode demoToken = some (demoId ++ hmacSha256 demoSecret demoId) ∧
    (demoId ++ hmacSha256 demoSecret demoId).length = idLen + sha256Size ∧
    getUser demoSecret demoToken = [] := by
  refine ⟨getUser_always_empty, ?_, ?_, getUser_always_empty _ _⟩
  · apply base64urlDecode_encode
    intro b hb
    rcases List.mem_append.mp hb with h | h
    · have : b = 0 := List.eq_of_mem_replicate h
      omega
    · exact hmacSha256_lt _ _ b h
  · rw [List.length_append, hmacSha256_length]
    simp [demoId, idLen, sha256Size]

/-- C4: the spec claims that on successful verification WrapC attaches the
resolved identity to the context under "userID" and invokes the inner
handler. In the code the inner handler is never invoked for any secret and
any Authorization header value: verification never succeeds (and the dead
success branch would attach the constant empty string, not the identity). -/
theorem claim4_wrapc_never_invokes_handler
    (secret : List Nat) (authHeader : String) (uid : String) :
    wrapC secret authHeader ≠ AuthOutcome.invoked uid := by
  unfold wrapC
  by_cases hp : strStartsWith authHeader "Bearer "
  · simp [hp, getUser_always_empty]
  · simp [hp]

/-- C5: a request whose Authorization header is missing (modelled by the
empty string `Header.Get` yields), lacks the exact "Bearer " marker, or
carries a token failing verification is answered with the 401 rejection,
and the downstream handler is not invoked. -/
theorem claim5_wrapc_rejects_bad_requests
    (secret : List Nat) (authHeader : String)
    (_h : ¬ strStartsWith authHeader "Bearer " ∨
        getUser secret (strDropChars authHeader "Bearer ".toList.length) = []) :
    isUnauthorized (wrapC secret authHeader) = true := by
  unfold wrapC
  by_cases hp : strStartsWith authHeader "Bearer "
  · simp [hp, getUser_always_empty, isUnauthorized]
  · simp [hp, isUnauthorized]

/-- C5 witness: the empty Authorization header is concretely rejected. -/
theorem claim5_witness :
    (¬ strStartsWith "" "Bearer ") ∧
      isUnauthorized (wrapC demoSecret "") = true :=
  ⟨by decide, claim5_wrapc_rejects_bad_requests demoSecret "" (Or.inl (by decide))⟩

/-- C6 counterexample: the spec claims a 418 response with any body yields
the unexpected-status error for 418. Concretely, a 418 response whose body
decodes as kind "not_found" makes Client.Do return that application error,
not the unexpected-status error. -/
theorem claim6_counterexample :
    (clientDo DoDest.nilDest (Except.ok ⟨418, nfBody⟩) decodeAlways).1 =
        DoOutcome.errUser ⟨"not_found", "gone"⟩ ∧
      (clientDo DoDest.nilDest (Except.ok ⟨418, nfBody⟩) decodeAlways).1 ≠
        DoOutcome.errUnexpectedStatus 418 := by
  constructor
  · decide
  · decide

/-- C6 amended: status 418 is above 399, so Client.Do takes the
application-error path for it under every body and every success-payload
decoder: it returns the decoded typed error when the body decodes and the
error-body-parse failure otherwise, and never the unexpected-status
error (that one is reserved for codes in 300..399 and below 199). -/
theorem claim6_amended_418_takes_error_path
    (body : String) (dec : String → Bool) :
    (clientDo DoDest.nilDest (Except.ok ⟨418, body⟩) dec).1 =
      match usererrorsUnmarshalJSON body with
      | some e => DoOutcome.errUser e
      | none => DoOutcome.errParseErrorBody := by
  unfold clientDo
  simp only [show (418 > 399) = True by simp, if_true]
  cases usererrorsUnmarshalJSON body with
  | none => rfl
  | some e => rfl

/-- C7: for every response status above 399 Client.Do decodes the body as
a structured application error, returning the typed error on success and
the distinct error-body-parse failure otherwise, under every
success-payload decoder. -/
theorem claim7_error_body_translation
    (status : Nat) (body : String) (dec : String → Bool)
    (h : 399 < status) :
    (clientDo DoDest.nilDest (Except.ok ⟨status, body⟩) dec).1 =
      match usererrorsUnmarshalJSON body with
      | some e => DoOutcome.errUser e
      | none => DoOutcome.errParseErrorBody := by
  unfold clientDo
  simp only [gt_iff_lt, if_pos h]
  cases usererrorsUnmarshalJSON body with
  | none => rfl
  | some e => rfl

/-- C7 witness: a 404 response whose body decodes as kind "not_found"
concretely yields the typed DomainError with kind "not_found". -/
theorem claim7_witness :
    399 < 404 ∧
      (clientDo DoDest.nilDest (Except.ok ⟨404, nfBody⟩) decodeAlways).1 =
        DoOutcome.errUser ⟨"not_found", "gone"⟩ := by
  refine ⟨by decide, ?_⟩
  rw [claim7_error_body_translation 404 nfBody decodeAlways (by decide)]
  decide

/-- C8 counterexample: the spec claims the invalid method sets — an empty
set and a set with two primary methods — are rejected eagerly at
registration time, not per request. In the code there is no
registration-time validation at all: both invalid descriptors flow into
Client.NewRequest and produce their errors there, when a request is
built. -/
theorem claim8_counterexample :
    newRequest client0 routeNoMethods none none =
        Except.error "route does not define any HTTPMethods" ∧
      newRequest client0 routeGetPost none none =
        Except.error "route defines multiple non-HEAD/OPTIONS methods" :=
  ⟨rfl, rfl⟩

/-- C8 amended: method resolution inside Client.NewRequest picks GET from
the set with GET alone and from the set with GET and HEAD (in either
iteration order), and reports errors — per request, at build time — for
the set with two primary methods and for the empty set. -/
theorem claim8_amended_method_resolution :
    reqMethod (newRequest client0 routeGetOnly none none) = Except.ok "GET" ∧
      reqMethod (newRequest client0 routeGetHead none none) = Except.ok "GET" ∧
      reqMethod (newRequest client0 routeHeadGet none none) = Except.ok "GET" ∧
      newRequest client0 routeGetPost none none =
        Except.error "route defines multiple non-HEAD/OPTIONS methods" ∧
      newRequest client0 routeNoMethods none none =
        Except.error "route does not define any HTTPMethods" :=
  ⟨rfl, rfl, rfl, rfl, rfl⟩

/-- Resolving a reference with a nonempty path takes the reference's query
string. -/
theorem resolveReference_rawQuery (base rel : GoURL) (h : rel.path ≠ "") :
    (resolveReference base rel).rawQuery = rel.rawQuery := by
  unfold resolveReference
  rw [if_neg h]
  split
  · rfl
  · rfl

/-- C9: for a route whose template expands to a plain path (no query of
its own) and a non-empty form, the built request places the encoded form
in the URL query string with an empty body when the resolved method is GET
or HEAD, and otherwise places it in the body with the
form-urlencoded Content-Type header and an empty query string. -/
theorem claim9_form_placement
    (c : ClientState) (rt : Route) (rtVars : Option (List (String × String)))
    (form : List (String × String)) (path : String) (req : Request)
    (_hform : form ≠ [])
    (hpath : rt.urlPath (rtVars.getD []) = Except.ok path)
    (hq : (urlParse path).rawQuery = "")
    (hp : (urlParse path).path ≠ "")
    (hok : newRequest c rt rtVars (some form) = Except.ok req) :
    ((req.method = "GET" ∨ req.method = "HEAD") →
        req.url.rawQuery = urlValuesEncode form ∧ req.body = none) ∧
      (¬ (req.method = "GET" ∨ req.method = "HEAD") →
        req.body = some (urlValuesEncode form) ∧
          ("Content-Type", "application/x-www-form-urlencoded") ∈ req.headers ∧
          req.url.rawQuery = "") := by
  unfold newRequest at hok
  simp only [] at hok
  rw [hpath] at hok
  cases hres : resolveMethod rt.httpMethods with
  | error e =>
      rw [hres] at hok
      exact absurd hok (by simp)
  | ok m =>
      rw [hres] at hok
      by_cases hm : m = "GET" ∨ m = "HEAD"
      · simp only [hm, if_true, iff_true, eq_self_iff_true, if_pos,
          Except.ok.injEq] at hok
        subst hok
        constructor
        · intro _
          exact ⟨rfl, rfl⟩
        · intro hcon
          exact absurd hm hcon
      · simp only [hm, if_false, iff_false, if_neg, not_false_iff,
          Except.ok.injEq] at hok
        subst hok
        constructor
        · intro hcon
          exact absurd hcon hm
        · intro _
          refine ⟨rfl, ?_, ?_⟩
          · simp
          · rw [resolveReference_rawQuery _ _ hp]
            exact hq

/-- C9 witness: building a POST request with form a=1 concretely places
the encoding in the body with the form Content-Type and leaves the query
empty. -/
theorem claim9_witness :
    newRequest client0 routePostOnly none (some [("a", "1")]) =
        Except.ok postReq ∧
      postReq.body = some (urlValuesEncode [("a", "1")]) ∧
        ("Content-Type", "application/x-www-form-urlencoded") ∈ postReq.headers ∧
        postReq.url.rawQuery = "" := by
  have h := claim9_form_placement client0 routePostOnly none [("a", "1")]
    "/moods" postReq (by decide) (by rfl) (by rfl) (by decide) (by rfl)
  exact ⟨by rfl, h.2 (by decide)⟩

/-- C10: when the destination value is neither nil nor a pointer,
Client.Do returns the destination error at once and the transport function
is never invoked (the second component records whether it was). -/
theorem claim10_nonpointer_destination
    (t : String) (transport : Except Unit GoResponse) (dec : String → Bool) :
    clientDo (DoDest.nonPtrDest t) transport dec =
      (DoOutcome.errValueNotPointer t, false) := rfl

end Saypi
